import Mathlib

/-!
Verification of `watermark.py`, a PDF watermarking pipeline.

The Python source is shallowly embedded below.  Python float arithmetic in
`calc_watermark_size` is modelled with exact rationals (`ℚ`); Python's
built-in `round` (banker's rounding, round half to even) is modelled by
`pyRound`, and `int(...)` truncation by `pyInt`.  Division by zero, which
raises `ZeroDivisionError` in Python, is modelled by returning `none`.
PIL rasters are modelled as a `width`, a `height` and a pixel function;
`Image.paste` with an RGBA mask and `Image.convert` follow PIL's documented
per-channel semantics (`MULDIV255` blending with rounding).
-/

/-- Constant `WM_MAX_W = 120` from the configuration block. -/
def WM_MAX_W : ℤ := 120

/-- Constant `WM_MIN_W = 107` from the configuration block. -/
def WM_MIN_W : ℤ := 107

/-- Constant `WM_MIN_H = 21` from the configuration block. -/
def WM_MIN_H : ℤ := 21

/-- Constant `WM_MARGIN = 0` from the configuration block. -/
def WM_MARGIN : ℤ := 0

/-- Constant `WM_OPACITY = 1.0` from the configuration block. -/
def WM_OPACITY : ℚ := 1

/-- Python's builtin `round` on a nonnegative or negative rational:
round half to even (banker's rounding), as Python 3 does. -/
def pyRound (q : ℚ) : ℤ :=
  if q - ⌊q⌋ < 1/2 then ⌊q⌋
  else if 1/2 < q - ⌊q⌋ then ⌊q⌋ + 1
  else if ⌊q⌋ % 2 = 0 then ⌊q⌋ else ⌊q⌋ + 1

/-- Python's builtin `int` on a rational: truncation toward zero. -/
def pyInt (q : ℚ) : ℤ :=
  if 0 ≤ q then ⌊q⌋ else -⌊-q⌋

/-- Shallow embedding of `calc_watermark_size` (watermark.py lines 58-73).
Each Python division that can raise `ZeroDivisionError` is guarded by a
`none` branch: `orig_h / orig_w` needs `orig_w ≠ 0`, and `new_h / ratio`
in the height-floor branch needs `ratio ≠ 0`. -/
def calc_watermark_size (orig_w orig_h : ℤ) : Option (ℤ × ℤ) :=
  if orig_w = 0 then none else
  let ratio : ℚ := (orig_h : ℚ) / (orig_w : ℚ)
  let new_w : ℤ := WM_MAX_W
  let new_h : ℤ := pyRound ((new_w : ℚ) * ratio)
  if new_h < WM_MIN_H then
    if ratio = 0 then none else
    let new_h : ℤ := WM_MIN_H
    let new_w : ℤ := pyRound ((new_h : ℚ) / ratio)
    if new_w < WM_MIN_W then some (WM_MIN_W, pyRound ((WM_MIN_W : ℚ) * ratio))
    else some (new_w, new_h)
  else
    if new_w < WM_MIN_W then some (WM_MIN_W, pyRound ((WM_MIN_W : ℚ) * ratio))
    else some (new_w, new_h)

/-- The three-phase sizing algorithm exactly as the specification words it
(step 1: ratio, step 2: width-first, step 3: height floor, step 4: width
floor), written independently of the source for the refinement claim. -/
def specSizing (orig_w orig_h : ℤ) : ℤ × ℤ :=
  let r : ℚ := (orig_h : ℚ) / (orig_w : ℚ)
  let w1 : ℤ := 120
  let h1 : ℤ := pyRound ((w1 : ℚ) * r)
  let p2 : ℤ × ℤ := if h1 < 21 then (pyRound ((21 : ℚ) / r), 21) else (w1, h1)
  if p2.1 < 107 then (107, pyRound ((107 : ℚ) * r)) else p2

/-- Variant of `calc_watermark_size` with the width-floor correction (the
second `if` of the source) removed, for the dead-branch refinement claim. -/
def calc_watermark_size_noWidthFloor (orig_w orig_h : ℤ) : Option (ℤ × ℤ) :=
  if orig_w = 0 then none else
  let ratio : ℚ := (orig_h : ℚ) / (orig_w : ℚ)
  let new_w : ℤ := WM_MAX_W
  let new_h : ℤ := pyRound ((new_w : ℚ) * ratio)
  if new_h < WM_MIN_H then
    if ratio = 0 then none else
    some (pyRound (((WM_MIN_H : ℤ) : ℚ) / ratio), WM_MIN_H)
  else
    some (new_w, new_h)

/-- The value held by the variable `new_w` of `calc_watermark_size` when
control reaches the width-floor check (the second `if` of the source),
for positive inputs. -/
def widthBeforeWidthFloor (orig_w orig_h : ℤ) : ℤ :=
  let ratio : ℚ := (orig_h : ℚ) / (orig_w : ℚ)
  if pyRound (((WM_MAX_W : ℤ) : ℚ) * ratio) < WM_MIN_H then
    pyRound (((WM_MIN_H : ℤ) : ℚ) / ratio)
  else WM_MAX_W

/-- The height-floor condition of `calc_watermark_size` (first `if`):
whether the tentative height `round(120 * ratio)` fell below `WM_MIN_H`. -/
def heightCorrectionTriggered (orig_w orig_h : ℤ) : Bool :=
  decide (pyRound (((WM_MAX_W : ℤ) : ℚ) * ((orig_h : ℚ) / (orig_w : ℚ))) < WM_MIN_H)

/-- ASCII digit test, as used by Python's `int` on a decimal string. -/
def isAsciiDigit (c : Char) : Bool :=
  '0' ≤ c && c ≤ '9'

/-- Numeric value of an ASCII digit. -/
def digitVal (c : Char) : ℕ :=
  c.toNat - '0'.toNat

/-- ASCII whitespace stripped by Python's `int` before parsing. -/
def isPySpace (c : Char) : Bool :=
  c = ' ' || c = '\t' || c = '\n' || c = '\r' || c = '\x0b' || c = '\x0c'

/-- Tail of Python's decimal-integer grammar after the first digit:
digits, optionally separated by single underscores (an underscore must be
followed by a digit and may not end the literal). -/
def parseDigitTail : List Char → ℕ → Option ℕ
  | [], acc => some acc
  | '_' :: c :: rest, acc =>
      if isAsciiDigit c then parseDigitTail rest (acc * 10 + digitVal c) else none
  | ['_'], _ => none
  | c :: rest, acc =>
      if isAsciiDigit c then parseDigitTail rest (acc * 10 + digitVal c) else none

/-- Unsigned part of Python's decimal-integer grammar: one digit, then
`parseDigitTail`. -/
def parseDigits : List Char → Option ℕ
  | [] => none
  | c :: rest => if isAsciiDigit c then parseDigitTail rest (digitVal c) else none

/-- Python's builtin `int(s)` for a decimal string (ASCII fragment):
surrounding whitespace is stripped, an optional sign precedes the digits,
underscores may separate digits; any other shape raises `ValueError`,
modelled as `none`. -/
def pyIntParse (s : String) : Option ℤ :=
  let cs := ((s.toList.dropWhile (fun c => isPySpace c)).reverse.dropWhile
    (fun c => isPySpace c)).reverse
  match cs with
  | '+' :: rest => (parseDigits rest).map (fun n => (n : ℤ))
  | '-' :: rest => (parseDigits rest).map (fun n => -(n : ℤ))
  | rest => (parseDigits rest).map (fun n => (n : ℤ))

/-- The `--quality` validation of `main` (watermark.py lines 152-159):
the literal `"lossless"` passes; otherwise `int(args.quality)` must parse
and lie in `[1, 100]`, else the program prints an error and exits 1. -/
def validQuality (q : String) : Bool :=
  if q = "lossless" then true
  else
    match pyIntParse q with
    | none => false
    | some n => decide (1 ≤ n) && decide (n ≤ 100)

/-- The pipeline stages of `main`, in source order, used to record how far
a run gets before exiting. -/
inductive Stage where
  | extractedPages : Stage
  | preparedWatermark : Stage
  | appliedWatermark : Stage
  | builtPdf : Stage
deriving DecidableEq

/-- The full stage trace of a run of `main` that passes validation. -/
def pipelineTrace : List Stage :=
  [Stage.extractedPages, Stage.preparedWatermark, Stage.appliedWatermark, Stage.builtPdf]

/-- Control-flow model of `main` (watermark.py lines 143-185) up to stage
granularity: the logo-existence check, then the quality validation, each
exiting with status 1 on failure, and only then the four pipeline stages
in order.  `Except.error` carries the process exit status; `Except.ok`
carries the stages that ran. -/
def mainModel (logoExists : Bool) (quality : String) : Except ℕ (List Stage) :=
  if logoExists = false then Except.error 1
  else if validQuality quality = false then Except.error 1
  else Except.ok pipelineTrace

/-- One RGBA pixel; channel values are the 0-255 bytes of a PIL raster. -/
structure Pixel where
  r : ℕ
  g : ℕ
  b : ℕ
  a : ℕ
deriving DecidableEq

/-- A PIL raster: dimensions and a pixel function. -/
structure Image where
  width : ℕ
  height : ℕ
  px : ℕ → ℕ → Pixel

/-- PIL's `MULDIV255(a, b)` rounding byte multiply:
`t = a*b + 128; ((t >> 8) + t) >> 8`, an exact rounding division by 255. -/
def muldiv255 (x y : ℕ) : ℕ :=
  let t := x * y + 128
  (t / 256 + t) / 256

/-- PIL's `BLEND(mask, in1, in2)` for one channel under a mask byte. -/
def blendChan (mask x y : ℕ) : ℕ :=
  muldiv255 x (255 - mask) + muldiv255 y mask

/-- Blend of one pasted pixel over a base pixel, the mask byte being the
alpha channel of the pasted (RGBA-mask) pixel, as PIL's paste does. -/
def blendPixel (base over : Pixel) : Pixel :=
  ⟨blendChan over.a base.r over.r, blendChan over.a base.g over.g,
   blendChan over.a base.b over.b, blendChan over.a base.a over.a⟩

/-- PIL `base.paste(over, (x, y), over)` with an RGBA image as its own
mask: inside the footprint of `over` (clipped to the base) each pixel is
mask-blended, outside it the base pixel is unchanged. -/
def pasteMask (base over : Image) (x y : ℤ) : Image :=
  { width := base.width, height := base.height,
    px := fun i j =>
      if x ≤ (i : ℤ) ∧ (i : ℤ) < x + over.width ∧
          y ≤ (j : ℤ) ∧ (j : ℤ) < y + over.height then
        blendPixel (base.px i j) (over.px ((i : ℤ) - x).toNat ((j : ℤ) - y).toNat)
      else base.px i j }

/-- PIL `convert("RGB")` on an RGBA raster: the alpha band is dropped
(modelled by forcing it to the opaque value 255). -/
def convert_RGB (img : Image) : Image :=
  { width := img.width, height := img.height,
    px := fun i j => ⟨(img.px i j).r, (img.px i j).g, (img.px i j).b, 255⟩ }

/-- Shallow embedding of `apply_watermark` (watermark.py lines 104-113).
The page argument stands for the opened page already converted to RGBA. -/
def apply_watermark (page watermark : Image) : Image :=
  let x : ℤ := (page.width : ℤ) - (watermark.width : ℤ) - WM_MARGIN
  let y : ℤ := (page.height : ℤ) - (watermark.height : ℤ) - WM_MARGIN
  convert_RGB (pasteMask page watermark x y)

/-- One band of a PIL raster, as produced by `Image.split`. -/
structure Band where
  width : ℕ
  height : ℕ
  px : ℕ → ℕ → ℕ

/-- Red band of `Image.split`. -/
def splitR (img : Image) : Band :=
  ⟨img.width, img.height, fun i j => (img.px i j).r⟩

/-- Green band of `Image.split`. -/
def splitG (img : Image) : Band :=
  ⟨img.width, img.height, fun i j => (img.px i j).g⟩

/-- Blue band of `Image.split`. -/
def splitB (img : Image) : Band :=
  ⟨img.width, img.height, fun i j => (img.px i j).b⟩

/-- Alpha band of `Image.split`. -/
def splitA (img : Image) : Band :=
  ⟨img.width, img.height, fun i j => (img.px i j).a⟩

/-- PIL `band.point(f)`: apply `f` to every band value. -/
def pointBand (b : Band) (f : ℕ → ℕ) : Band :=
  ⟨b.width, b.height, fun i j => f (b.px i j)⟩

/-- PIL `Image.merge("RGBA", (r, g, b, a))`. -/
def mergeRGBA (r g b a : Band) : Image :=
  ⟨r.width, r.height, fun i j => ⟨r.px i j, g.px i j, b.px i j, a.px i j⟩⟩

/-- Shallow embedding of `prepare_watermark` (watermark.py lines 90-101).
The logo argument stands for the opened logo converted to RGBA; PIL's
Lanczos `resize`, a library call whose pixel values the source does not
determine, is abstracted as the function argument `resizeFn` applied to
the size computed by `calc_watermark_size`.  The opacity step is the
source's `split` / `point` (with `int(p * opacity)`) / `merge` sequence.
A `none` size (impossible for a real logo) propagates as `none`. -/
def prepare_watermark (resizeFn : Image → ℤ × ℤ → Image) (logo : Image)
    (opacity : ℚ) : Option Image :=
  match calc_watermark_size (logo.width : ℤ) (logo.height : ℤ) with
  | none => none
  | some sz =>
      let resized := resizeFn logo sz
      let rBand := splitR resized
      let gBand := splitG resized
      let bBand := splitB resized
      let aBand := pointBand (splitA resized) (fun p => (pyInt ((p : ℚ) * opacity)).toNat)
      some (mergeRGBA rBand gBand bBand aBand)

/-- Zero-padded page counter, Python's `f"{i:03d}"`. -/
def pad3 (n : ℕ) : String :=
  if n < 10 then "00" ++ toString n
  else if n < 100 then "0" ++ toString n
  else toString n

/-- Files written by a successful `build_pdf` run: the per-page
intermediate raster files in order, then the output PDF path. -/
structure BuildResult where
  pageFiles : List String
  outputPath : String
deriving DecidableEq

/-- Shallow embedding of `build_pdf` (watermark.py lines 116-136) at file
granularity: an empty image list exits with status 1 before anything is
written; otherwise each image `i` is saved to
`tmp_dir/wm_{i:03d}.png` (quality `"lossless"`) or `.jpg` (numeric
quality), and the PDF is written to `output_path`. -/
def build_pdf (images : List Image) (output_path tmp_dir quality : String) :
    Except ℕ BuildResult :=
  if images.isEmpty then Except.error 1
  else
    let lossless : Bool := quality = "lossless"
    let ext : String := if lossless then "png" else "jpg"
    Except.ok
      ⟨(List.range images.length).map (fun i => tmp_dir ++ "/wm_" ++ pad3 i ++ "." ++ ext),
        output_path⟩

/-- A concrete 2×2 RGBA page raster used to witness the compositor claims. -/
def pageA : Image := ⟨2, 2, fun _ _ => ⟨1, 2, 3, 255⟩⟩

/-- A concrete 1×1 RGBA watermark raster used to witness the compositor
claims. -/
def wmA : Image := ⟨1, 1, fun _ _ => ⟨9, 9, 9, 128⟩⟩

/-- A concrete 200×200 RGBA logo raster used to witness the watermark
preparation claim. -/
def logoA : Image := ⟨200, 200, fun _ _ => ⟨10, 20, 30, 100⟩⟩

@[simp] lemma WM_MAX_W_eq : WM_MAX_W = 120 := rfl

@[simp] lemma WM_MIN_W_eq : WM_MIN_W = 107 := rfl

@[simp] lemma WM_MIN_H_eq : WM_MIN_H = 21 := rfl

@[simp] lemma WM_MARGIN_eq : WM_MARGIN = 0 := rfl

lemma le_pyRound (q : ℚ) : q - 1/2 ≤ (pyRound q : ℚ) := by
  have h1 : (⌊q⌋ : ℚ) ≤ q := Int.floor_le q
  have h2 : q < ⌊q⌋ + 1 := Int.lt_floor_add_one q
  unfold pyRound
  split_ifs with ha hb hc
  · linarith
  · push_cast
    linarith
  · push_cast at *
    linarith
  · push_cast at *
    linarith

lemma pyRound_le (q : ℚ) : (pyRound q : ℚ) ≤ q + 1/2 := by
  have h1 : (⌊q⌋ : ℚ) ≤ q := Int.floor_le q
  have h2 : q < ⌊q⌋ + 1 := Int.lt_floor_add_one q
  unfold pyRound
  split_ifs with ha hb hc
  · linarith
  · push_cast at *
    linarith
  · push_cast at *
    linarith
  · push_cast at *
    linarith

@[simp] lemma pyRound_intCast (n : ℤ) : pyRound ((n : ℚ)) = n := by
  unfold pyRound
  rw [Int.floor_intCast]
  norm_num

lemma width_after_height_fix_ge (r : ℚ) (hr : 0 < r)
    (hb : pyRound (120 * r) < 21) : 123 ≤ pyRound (21 / r) := by
  have h1 : (pyRound (120 * r) : ℚ) ≤ 20 := by
    have : pyRound (120 * r) ≤ 20 := by omega
    exact_mod_cast this
  have h2 : 120 * r - 1/2 ≤ (pyRound (120 * r) : ℚ) := le_pyRound _
  have hr41 : r ≤ 41/240 := by linarith
  have h3 : (5040 : ℚ)/41 ≤ 21 / r := by
    rw [div_le_div_iff₀ (by norm_num) hr]
    nlinarith
  have h4 : 21 / r - 1/2 ≤ (pyRound (21 / r) : ℚ) := le_pyRound _
  have h5 : (122 : ℚ) < (pyRound (21 / r) : ℚ) := by linarith
  have h6 : (122 : ℤ) < pyRound (21 / r) := by exact_mod_cast h5
  omega

lemma ratio_pos {w h : ℤ} (hw : 1 ≤ w) (hh : 1 ≤ h) :
    0 < (h : ℚ) / (w : ℚ) := by
  apply div_pos
  · exact_mod_cast hh
  · exact_mod_cast hw

lemma calc_pos_eval (w h : ℤ) (hw : 1 ≤ w) (hh : 1 ≤ h) :
    calc_watermark_size w h =
      (if pyRound (120 * ((h : ℚ) / (w : ℚ))) < 21 then
        some (pyRound (21 / ((h : ℚ) / (w : ℚ))), 21)
      else some (120, pyRound (120 * ((h : ℚ) / (w : ℚ))))) := by
  have hw0 : w ≠ 0 := by omega
  have hr : 0 < (h : ℚ) / (w : ℚ) := ratio_pos hw hh
  unfold calc_watermark_size
  rw [if_neg hw0]
  simp only [WM_MIN_H_eq, WM_MAX_W_eq, WM_MIN_W_eq]
  push_cast
  by_cases hb : pyRound (120 * ((h : ℚ) / (w : ℚ))) < 21
  · rw [if_pos hb, if_pos hb, if_neg hr.ne', if_neg]
    have := width_after_height_fix_ge _ hr hb
    omega
  · rw [if_neg hb, if_neg hb]

lemma calc_noWidthFloor_pos_eval (w h : ℤ) (hw : 1 ≤ w) (hh : 1 ≤ h) :
    calc_watermark_size_noWidthFloor w h =
      (if pyRound (120 * ((h : ℚ) / (w : ℚ))) < 21 then
        some (pyRound (21 / ((h : ℚ) / (w : ℚ))), 21)
      else some (120, pyRound (120 * ((h : ℚ) / (w : ℚ))))) := by
  have hw0 : w ≠ 0 := by omega
  have hr : 0 < (h : ℚ) / (w : ℚ) := ratio_pos hw hh
  unfold calc_watermark_size_noWidthFloor
  rw [if_neg hw0]
  simp only [WM_MIN_H_eq, WM_MAX_W_eq]
  push_cast
  by_cases hb : pyRound (120 * ((h : ℚ) / (w : ℚ))) < 21
  · rw [if_pos hb, if_pos hb, if_neg hr.ne']
  · rw [if_neg hb, if_neg hb]

lemma specSizing_pos_eval (w h : ℤ) (hw : 1 ≤ w) (hh : 1 ≤ h) :
    specSizing w h =
      (if pyRound (120 * ((h : ℚ) / (w : ℚ))) < 21 then
        (pyRound (21 / ((h : ℚ) / (w : ℚ))), 21)
      else (120, pyRound (120 * ((h : ℚ) / (w : ℚ))))) := by
  have hr : 0 < (h : ℚ) / (w : ℚ) := ratio_pos hw hh
  unfold specSizing
  push_cast
  by_cases hb : pyRound (120 * ((h : ℚ) / (w : ℚ))) < 21
  · rw [if_pos hb]
    have hkey := width_after_height_fix_ge _ hr hb
    dsimp only
    rw [if_neg (by omega)]
  · rw [if_neg hb]
    dsimp only
    rw [if_neg (by omega)]

lemma widthBeforeWidthFloor_ge (w h : ℤ) (hw : 1 ≤ w) (hh : 1 ≤ h) :
    107 ≤ widthBeforeWidthFloor w h := by
  have hr : 0 < (h : ℚ) / (w : ℚ) := ratio_pos hw hh
  unfold widthBeforeWidthFloor
  simp only [WM_MIN_H_eq, WM_MAX_W_eq]
  push_cast
  by_cases hb : pyRound (120 * ((h : ℚ) / (w : ℚ))) < 21
  · rw [if_pos hb]
    have := width_after_height_fix_ge _ hr hb
    omega
  · rw [if_neg hb]
    norm_num

lemma calc_eval_200_200 : calc_watermark_size 200 200 = some (120, 120) := by
  rw [calc_pos_eval 200 200 (by norm_num) (by norm_num)]
  rw [show (120 : ℚ) * (((200 : ℤ) : ℚ) / ((200 : ℤ) : ℚ)) = ((120 : ℤ) : ℚ) by
    push_cast; norm_num]
  rw [pyRound_intCast]
  norm_num

lemma calc_eval_1000_50 : calc_watermark_size 1000 50 = some (420, 21) := by
  rw [calc_pos_eval 1000 50 (by norm_num) (by norm_num)]
  rw [show (120 : ℚ) * (((50 : ℤ) : ℚ) / ((1000 : ℤ) : ℚ)) = ((6 : ℤ) : ℚ) by
    push_cast; norm_num]
  rw [show (21 : ℚ) / (((50 : ℤ) : ℚ) / ((1000 : ℤ) : ℚ)) = ((420 : ℤ) : ℚ) by
    push_cast; norm_num]
  rw [pyRound_intCast, pyRound_intCast]
  norm_num

lemma calc_eval_50_1000 : calc_watermark_size 50 1000 = some (120, 2400) := by
  rw [calc_pos_eval 50 1000 (by norm_num) (by norm_num)]
  rw [show (120 : ℚ) * (((1000 : ℤ) : ℚ) / ((50 : ℤ) : ℚ)) = ((2400 : ℤ) : ℚ) by
    push_cast; norm_num]
  rw [pyRound_intCast]
  norm_num

@[simp] lemma pyRound_zero : pyRound 0 = 0 := by
  simpa using pyRound_intCast 0

lemma heightCorrectionTriggered_eq (w h : ℤ) :
    heightCorrectionTriggered w h =
      decide (pyRound (120 * ((h : ℚ) / (w : ℚ))) < 21) := by
  unfold heightCorrectionTriggered
  norm_num

lemma calc_bounds_core (w h W H : ℤ) (hw : 1 ≤ w) (hh : 1 ≤ h)
    (hres : calc_watermark_size w h = some (W, H)) :
    21 ≤ H ∧ 107 ≤ W ∧
    (heightCorrectionTriggered w h = true ∨ W ≤ 120) ∧
    (H = pyRound ((W : ℚ) * ((h : ℚ) / (w : ℚ))) ∨
     W = pyRound ((H : ℚ) / ((h : ℚ) / (w : ℚ)))) := by
  have hr : 0 < (h : ℚ) / (w : ℚ) := ratio_pos hw hh
  rw [calc_pos_eval w h hw hh] at hres
  by_cases hb : pyRound (120 * ((h : ℚ) / (w : ℚ))) < 21
  · rw [if_pos hb] at hres
    simp only [Option.some.injEq, Prod.mk.injEq] at hres
    obtain ⟨hW, hH⟩ := hres
    subst hW
    subst hH
    have hkey := width_after_height_fix_ge _ hr hb
    refine ⟨by omega, by omega, ?_, ?_⟩
    · left
      rw [heightCorrectionTriggered_eq]
      exact decide_eq_true hb
    · right
      push_cast
      rfl
  · rw [if_neg hb] at hres
    simp only [Option.some.injEq, Prod.mk.injEq] at hres
    obtain ⟨hW, hH⟩ := hres
    subst hW
    subst hH
    refine ⟨by omega, by omega, Or.inr (by omega), Or.inl ?_⟩
    push_cast
    rfl

lemma pyInt_intCast (n : ℤ) : pyInt ((n : ℚ)) = n := by
  unfold pyInt
  split_ifs
  · exact Int.floor_intCast n
  · rw [← Int.cast_neg, Int.floor_intCast]
    omega

/-- C1: for every source logo with integer width ≥ 1 and height ≥ 1,
`calc_watermark_size` returns `(W, H)` with `H ≥ 21` and `W ≥ 107`, with
`W ≤ 120` whenever the min-height correction was not triggered, and with
the final pair reproducing the source aspect ratio up to integer rounding
of the recomputed dimension (`H = round(W·r)` or `W = round(H/r)`). -/
theorem calc_watermark_size_bounds (w h W H : ℤ) (hw : 1 ≤ w) (hh : 1 ≤ h)
    (hres : calc_watermark_size w h = some (W, H)) :
    21 ≤ H ∧ 107 ≤ W ∧
    (heightCorrectionTriggered w h = true ∨ W ≤ 120) ∧
    (H = pyRound ((W : ℚ) * ((h : ℚ) / (w : ℚ))) ∨
     W = pyRound ((H : ℚ) / ((h : ℚ) / (w : ℚ)))) :=
  calc_bounds_core w h W H hw hh hres

theorem calc_watermark_size_bounds_witness :
    (1 : ℤ) ≤ 200 ∧ (1 : ℤ) ≤ 200 ∧
      calc_watermark_size 200 200 = some (120, 120) ∧
      (21 ≤ (120 : ℤ) ∧ 107 ≤ (120 : ℤ) ∧
        (heightCorrectionTriggered 200 200 = true ∨ (120 : ℤ) ≤ 120) ∧
        ((120 : ℤ) = pyRound (((120 : ℤ) : ℚ) * (((200 : ℤ) : ℚ) / ((200 : ℤ) : ℚ))) ∨
         (120 : ℤ) = pyRound (((120 : ℤ) : ℚ) / (((200 : ℤ) : ℚ) / ((200 : ℤ) : ℚ))))) :=
  ⟨by norm_num, by norm_num, calc_eval_200_200,
    calc_watermark_size_bounds 200 200 120 120 (by norm_num) (by norm_num) calc_eval_200_200⟩

/-- C2 counterexample: the data-model invariant conjunct
"final width ≤ WM_MAX_W" fails on the code at a 1000×50 logo, where
`calc_watermark_size` returns width 420 > 120. -/
theorem wm_size_invariant_counterexample :
    calc_watermark_size 1000 50 = some (420, 21) ∧ ¬ ((420 : ℤ) ≤ WM_MAX_W) :=
  ⟨calc_eval_1000_50, by norm_num⟩

/-- C2 amended: for every source logo with integer width ≥ 1 and
height ≥ 1, the result of `calc_watermark_size` satisfies
width ≥ WM_MIN_W, height ≥ WM_MIN_H, width ≤ WM_MAX_W whenever the
min-height correction was not triggered, and the aspect ratio of the
result equals the source aspect ratio up to integer rounding of the
recomputed dimension. -/
theorem wm_size_invariant_amended (w h W H : ℤ) (hw : 1 ≤ w) (hh : 1 ≤ h)
    (hres : calc_watermark_size w h = some (W, H)) :
    WM_MIN_W ≤ W ∧ WM_MIN_H ≤ H ∧
    (heightCorrectionTriggered w h = true ∨ W ≤ WM_MAX_W) ∧
    (H = pyRound ((W : ℚ) * ((h : ℚ) / (w : ℚ))) ∨
     W = pyRound ((H : ℚ) / ((h : ℚ) / (w : ℚ)))) := by
  obtain ⟨h1, h2, h3, h4⟩ := calc_bounds_core w h W H hw hh hres
  exact ⟨by simpa using h2, by simpa using h1, by simpa using h3, h4⟩

theorem wm_size_invariant_amended_witness :
    (1 : ℤ) ≤ 1000 ∧ (1 : ℤ) ≤ 50 ∧
      calc_watermark_size 1000 50 = some (420, 21) ∧
      (WM_MIN_W ≤ (420 : ℤ) ∧ WM_MIN_H ≤ (21 : ℤ) ∧
        (heightCorrectionTriggered 1000 50 = true ∨ (420 : ℤ) ≤ WM_MAX_W) ∧
        ((21 : ℤ) = pyRound (((420 : ℤ) : ℚ) * (((50 : ℤ) : ℚ) / ((1000 : ℤ) : ℚ))) ∨
         (420 : ℤ) = pyRound (((21 : ℤ) : ℚ) / (((50 : ℤ) : ℚ) / ((1000 : ℤ) : ℚ))))) :=
  ⟨by norm_num, by norm_num, calc_eval_1000_50,
    wm_size_invariant_amended 1000 50 420 21 (by norm_num) (by norm_num) calc_eval_1000_50⟩

/-- C3: `calc_watermark_size` implements exactly the three-phase sizing
algorithm of the specification (width-first, height floor, width floor,
each correction applied at most once in this fixed order), and in
particular maps 200×200 to (120, 120), 1000×50 to (420, 21) and
50×1000 to (120, 2400). -/
theorem calc_watermark_size_spec_alg (w h : ℤ) (hw : 1 ≤ w) (hh : 1 ≤ h) :
    calc_watermark_size w h = some (specSizing w h) ∧
    calc_watermark_size 200 200 = some (120, 120) ∧
    calc_watermark_size 1000 50 = some (420, 21) ∧
    calc_watermark_size 50 1000 = some (120, 2400) := by
  refine ⟨?_, calc_eval_200_200, calc_eval_1000_50, calc_eval_50_1000⟩
  rw [calc_pos_eval w h hw hh, specSizing_pos_eval w h hw hh]
  by_cases hb : pyRound (120 * ((h : ℚ) / (w : ℚ))) < 21
  · rw [if_pos hb, if_pos hb]
  · rw [if_neg hb, if_neg hb]

theorem calc_watermark_size_spec_alg_witness :
    (1 : ℤ) ≤ 200 ∧ (1 : ℤ) ≤ 200 ∧
      (calc_watermark_size 200 200 = some (specSizing 200 200) ∧
        calc_watermark_size 200 200 = some (120, 120) ∧
        calc_watermark_size 1000 50 = some (420, 21) ∧
        calc_watermark_size 50 1000 = some (120, 2400)) :=
  ⟨by norm_num, by norm_num,
    calc_watermark_size_spec_alg 200 200 (by norm_num) (by norm_num)⟩

/-- C9: on positive inputs the width-floor branch of `calc_watermark_size`
(the second `if`, setting width to 107) is dead code: the width reaching
that check is always ≥ 107 (it is 120, or ≥ 123 after the height floor),
so the function coincides with the variant that omits the correction. -/
theorem calc_watermark_size_widthFloor_dead (w h : ℤ) (hw : 1 ≤ w) (hh : 1 ≤ h) :
    WM_MIN_W ≤ widthBeforeWidthFloor w h ∧
    calc_watermark_size w h = calc_watermark_size_noWidthFloor w h := by
  refine ⟨by simpa using widthBeforeWidthFloor_ge w h hw hh, ?_⟩
  rw [calc_pos_eval w h hw hh, calc_noWidthFloor_pos_eval w h hw hh]

theorem calc_watermark_size_widthFloor_dead_witness :
    (1 : ℤ) ≤ 1000 ∧ (1 : ℤ) ≤ 50 ∧
      (WM_MIN_W ≤ widthBeforeWidthFloor 1000 50 ∧
        calc_watermark_size 1000 50 = calc_watermark_size_noWidthFloor 1000 50) :=
  ⟨by norm_num, by norm_num,
    calc_watermark_size_widthFloor_dead 1000 50 (by norm_num) (by norm_num)⟩

/-- C10: `calc_watermark_size` is defined (no `ZeroDivisionError`) exactly
when both source dimensions are nonzero: `orig_h / orig_w` divides by the
source width, and the height-floor branch divides by the ratio, which
vanishes exactly when the source height is zero. -/
theorem calc_watermark_size_total_iff (w h : ℤ) :
    (calc_watermark_size w h).isSome = true ↔ (w ≠ 0 ∧ h ≠ 0) := by
  by_cases hw : w = 0
  · simp [calc_watermark_size, hw]
  · by_cases hh : h = 0
    · subst hh
      simp [calc_watermark_size, hw]
    · have hr0 : (h : ℚ) / (w : ℚ) ≠ 0 :=
        div_ne_zero (Int.cast_ne_zero.mpr hh) (Int.cast_ne_zero.mpr hw)
      unfold calc_watermark_size
      rw [if_neg hw]
      dsimp only
      split_ifs <;> simp_all

/-- C4: with the logo present, `main` exits with status 1 before any page
extraction exactly when `--quality` is neither the literal `"lossless"`
nor an integer string in `[1, 100]`; on every accepted quality the
validation does not exit and all four stages run, starting with page
extraction. -/
theorem main_quality_validation (q : String) :
    (validQuality q = true ↔
      (q = "lossless" ∨ ∃ n : ℤ, pyIntParse q = some n ∧ 1 ≤ n ∧ n ≤ 100)) ∧
    (mainModel true q = Except.error 1 ↔ validQuality q = false) ∧
    (mainModel true q = Except.ok pipelineTrace ↔ validQuality q = true) := by
  refine ⟨?_, ?_, ?_⟩
  · unfold validQuality
    by_cases hq : q = "lossless"
    · simp [hq]
    · rw [if_neg hq]
      cases hp : pyIntParse q with
      | none => simp [hq]
      | some n => simp [hq]
  · unfold mainModel
    cases hv : validQuality q <;> simp [hv]
  · unfold mainModel
    cases hv : validQuality q <;> simp [hv]

/-- C5: `build_pdf` exits with status 1, creating no files, exactly on an
empty page-image list, for every quality setting and destination path;
every non-empty list takes the success path. -/
theorem build_pdf_empty_guard (images : List Image) (out tmp q : String) :
    (build_pdf images out tmp q = Except.error 1 ↔ images = []) ∧
    ((∃ r : BuildResult, build_pdf images out tmp q = Except.ok r) ↔ images ≠ []) := by
  cases images <;> simp [build_pdf]

/-- C6: `apply_watermark` returns a raster of exactly the page's
dimensions, equal to the RGB conversion of pasting the watermark at
offset `(page_width − wm_width − 0, page_height − wm_height − 0)`,
i.e. flush to the bottom-right corner with margin 0. -/
theorem apply_watermark_geometry (page wm : Image) :
    (apply_watermark page wm).width = page.width ∧
    (apply_watermark page wm).height = page.height ∧
    apply_watermark page wm =
      convert_RGB (pasteMask page wm ((page.width : ℤ) - (wm.width : ℤ) - 0)
        ((page.height : ℤ) - (wm.height : ℤ) - 0)) :=
  ⟨rfl, rfl, rfl⟩

/-- C7: when the page is at least as large as the watermark, every pixel
of the composited page outside the watermark's bottom-right footprint
keeps the page's color, and every pixel inside it is the mask-weighted
"over" blend of the watermark onto the page (alpha dropped by the final
RGB conversion). -/
theorem apply_watermark_pixel_effect (page wm : Image) (i j : ℕ)
    (hw : wm.width ≤ page.width) (hh : wm.height ≤ page.height)
    (hi : i < page.width) (hj : j < page.height) :
    (apply_watermark page wm).px i j =
      if page.width - wm.width ≤ i ∧ page.height - wm.height ≤ j then
        ⟨(blendPixel (page.px i j)
            (wm.px (i - (page.width - wm.width)) (j - (page.height - wm.height)))).r,
          (blendPixel (page.px i j)
            (wm.px (i - (page.width - wm.width)) (j - (page.height - wm.height)))).g,
          (blendPixel (page.px i j)
            (wm.px (i - (page.width - wm.width)) (j - (page.height - wm.height)))).b,
          255⟩
      else ⟨(page.px i j).r, (page.px i j).g, (page.px i j).b, 255⟩ := by
  unfold apply_watermark convert_RGB pasteMask
  simp only [WM_MARGIN_eq]
  by_cases hc : page.width - wm.width ≤ i ∧ page.height - wm.height ≤ j
  · rw [if_pos hc]
    have e1 : ((i : ℤ) - ((page.width : ℤ) - (wm.width : ℤ) - 0)).toNat =
        i - (page.width - wm.width) := by omega
    have e2 : ((j : ℤ) - ((page.height : ℤ) - (wm.height : ℤ) - 0)).toNat =
        j - (page.height - wm.height) := by omega
    rw [if_pos (by omega)]
    rw [e1, e2]
  · rw [if_neg hc, if_neg (by omega)]

theorem apply_watermark_pixel_effect_witness :
    wmA.width ≤ pageA.width ∧ wmA.height ≤ pageA.height ∧
    1 < pageA.width ∧ 1 < pageA.height ∧
    (apply_watermark pageA wmA).px 1 1 =
      (if pageA.width - wmA.width ≤ 1 ∧ pageA.height - wmA.height ≤ 1 then
        ⟨(blendPixel (pageA.px 1 1)
            (wmA.px (1 - (pageA.width - wmA.width)) (1 - (pageA.height - wmA.height)))).r,
          (blendPixel (pageA.px 1 1)
            (wmA.px (1 - (pageA.width - wmA.width)) (1 - (pageA.height - wmA.height)))).g,
          (blendPixel (pageA.px 1 1)
            (wmA.px (1 - (pageA.width - wmA.width)) (1 - (pageA.height - wmA.height)))).b,
          255⟩
      else ⟨(pageA.px 1 1).r, (pageA.px 1 1).g, (pageA.px 1 1).b, 255⟩) :=
  ⟨by decide, by decide, by decide, by decide,
    apply_watermark_pixel_effect pageA wmA 1 1 (by decide) (by decide) (by decide) (by decide)⟩

/-- C8: for every opacity in [0, 1], `prepare_watermark` leaves the R, G
and B channels of every pixel of the resized logo unchanged and replaces
each pixel's alpha by `int(alpha * opacity)` — a multiplicative scaling
of the existing per-pixel alpha, not a flat overwrite. -/
theorem prepare_watermark_opacity (resizeFn : Image → ℤ × ℤ → Image)
    (logo : Image) (opacity : ℚ) (sz : ℤ × ℤ) (i j : ℕ)
    (hsz : calc_watermark_size (logo.width : ℤ) (logo.height : ℤ) = some sz)
    (_h0 : 0 ≤ opacity) (_h1 : opacity ≤ 1) :
    (prepare_watermark resizeFn logo opacity).map (fun wm => wm.px i j) =
      some ⟨((resizeFn logo sz).px i j).r, ((resizeFn logo sz).px i j).g,
        ((resizeFn logo sz).px i j).b,
        (pyInt ((((resizeFn logo sz).px i j).a : ℚ) * opacity)).toNat⟩ := by
  unfold prepare_watermark
  rw [hsz]
  rfl

theorem prepare_watermark_opacity_witness :
    calc_watermark_size ((logoA.width : ℕ) : ℤ) ((logoA.height : ℕ) : ℤ) =
      some (120, 120) ∧
    (0 : ℚ) ≤ 1/2 ∧ (1/2 : ℚ) ≤ 1 ∧
    (prepare_watermark (fun l _ => l) logoA (1/2)).map (fun wm => wm.px 0 0) =
      some ⟨10, 20, 30, 50⟩ :=
  ⟨calc_eval_200_200, by norm_num, by norm_num,
    (prepare_watermark_opacity (fun l _ => l) logoA (1/2) (120, 120) 0 0
      calc_eval_200_200 (by norm_num) (by norm_num)).trans (by
        have e : (((logoA.px 0 0).a : ℚ)) * (1/2) = ((50 : ℤ) : ℚ) := by
          norm_num [logoA]
        rw [e, pyInt_intCast]
        rfl)⟩
